import Mathlib

/-!
Shallow embedding of `src/regulations_utils.py` (class `CommentsDownloader`),
the bulk downloader for Regulations.gov dockets, documents and comments.

Conventions of the embedding:
* Python dicts that carry heterogeneous JSON data are modelled as association
  lists from column name (`String`) to `Value`.
* `lastModifiedDate` timestamps are modelled as `Nat`, already normalised to
  the fixed Eastern reference time zone at second precision, so that the
  ordering of the `Nat`s coincides with the string ordering of the
  `%Y-%m-%d %H:%M:%S` representations used by the code.  The placeholder
  cursor `'1900-01-01 00:00:00'` is the minimal value `0`.
* Fallible Python code (raised exceptions) is modelled with `Except PyErr`;
  loops whose termination depends on the server are fuel-indexed.
* Network effects are modelled by passing in the server's behaviour as a
  function (a `ListingApi` for search endpoints, a fetch function for detail
  endpoints); the single-threaded code performs no other effects that the
  claims depend on.
-/

/-- A Python/JSON value as it appears in an item's `attributes` dict:
a string, a list of strings, an integer, or `None`/missing. -/
inductive Value where
  | vstr (s : String)
  | vlist (l : List String)
  | vint (n : Int)
  | vnull
  deriving DecidableEq, Repr

/-- One output row: a flattened mapping from column name to value. -/
abbrev Row := List (String × Value)

/-- One raw API item, as found in a response's `data` payload:
`{'id': ..., 'attributes': {...}}`.  The `lastModifiedDate` field models the
item's `attributes['lastModifiedDate']` parsed and normalised to the Eastern
reference time zone at second precision (see module docstring). -/
structure Item where
  id : String
  attributes : List (String × Value)
  lastModifiedDate : Nat
  deriving DecidableEq, Repr

/-- One entry of a response's `errors` list. -/
structure ErrEntry where
  status : String
  detail : String
  deriving DecidableEq, Repr

/-- The JSON body of an API response.  A real body has either an `errors`
list, or a `data` payload which is a list of items (search endpoints,
together with `meta.lastPage`) or a single item (detail endpoints); the
unused projections default to empty. -/
structure ResponseJson where
  errors : Option (List ErrEntry) := none
  dataList : List Item := []
  dataItem : Option Item := none
  metaLastPage : Bool := true
  deriving DecidableEq, Repr

/-- Python exceptions (and fuel exhaustion of the embedding). -/
inductive PyErr where
  | valueError (msg : String)
  | indexError
  | keyError
  | httpError (status : Nat) (body : ResponseJson)
  | unrecoverableError (body : ResponseJson)
  | outOfFuel
  deriving DecidableEq, Repr

/-! ## `_is_duplicated_on_server` (src/regulations_utils.py lines 777-791) -/

/-- `_is_duplicated_on_server`:
`('errors' in response_json.keys()) and (response_json['errors'][0]['status'] == "500")
and (response_json['errors'][0]['detail'][:21] == "Incorrect result size")`.
The slice `detail[:21]` is `List.take 21` on the characters.  When the
`errors` key is present but the list is empty, `['errors'][0]` raises an
IndexError. -/
def isDuplicatedOnServer (r : ResponseJson) : Except PyErr Bool :=
  match r.errors with
  | none => .ok false
  | some [] => .error .indexError
  | some (e :: _) =>
      .ok (decide (e.status = "500") &&
           decide (e.detail.data.take 21 = ("Incorrect result size").data))

/-! ## `_insert_data` (src lines 853-877): the relational sink

`_insert_data` stages the batch in a `tmp` table and runs
`INSERT OR IGNORE INTO table (cols) SELECT cols FROM tmp`.  Each of the six
tables declares one `NOT NULL UNIQUE` identifier column, so SQLite inserts
the staged rows one by one, silently skipping any row whose value in the
unique column is already present (or absent, which violates `NOT NULL`). -/

/-- Value of the table's declared unique column in a row (`None` if the
column is absent, which SQLite treats as a NULL violating `NOT NULL`). -/
def rowKey (uniqueCol : String) (r : Row) : Option Value :=
  (r.find? (fun p => decide (p.1 = uniqueCol))).map Prod.snd

/-- The unique-column values currently present in a table. -/
def tableKeys (uniqueCol : String) (t : List Row) : List Value :=
  t.filterMap (rowKey uniqueCol)

/-- Insertion of one staged row under `INSERT OR IGNORE`: skipped when its
unique-column value is missing (`NOT NULL`) or already present (`UNIQUE`). -/
def insertOrIgnoreRow (uniqueCol : String) (t : List Row) (r : Row) : List Row :=
  match rowKey uniqueCol r with
  | none => t
  | some k => if k ∈ tableKeys uniqueCol t then t else t ++ [r]

/-- `_insert_data`: the staged batch is inserted row by row in order. -/
def insertData (uniqueCol : String) (t : List Row) (batch : List Row) : List Row :=
  batch.foldl (insertOrIgnoreRow uniqueCol) t

/-! ## The page-fetch retry loop of `gather_headers` (src lines 242-253)

```
retries = 5
while retries > 0:
    try:
        r_items = self.get_request_json(...)
        break
    except:
        retries -= 1
```

`fetch n` is the outcome of the `n`-th attempt (0-based).  The loop stops at
the first successful attempt; when all five attempts raise, the loop simply
ends: the final exception is swallowed and `r_items` keeps whatever value it
had before (it is unbound on the very first page request of a run). -/

/-- One unrolling of the `while retries > 0` loop. -/
def pageRetryLoop (fetch : Nat → Except PyErr ResponseJson) :
    Nat → Nat → Option ResponseJson
  | 0, _ => none
  | retries + 1, attempt =>
    match fetch attempt with
    | .ok r => some r
    | .error _ => pageRetryLoop fetch retries (attempt + 1)

/-- The retry wrapper around one page request: `some r` when one of the five
attempts succeeds, `none` when all five raise (no exception escapes). -/
def pageFetchWithRetries (fetch : Nat → Except PyErr ResponseJson) :
    Option ResponseJson :=
  pageRetryLoop fetch 5 0

/-! ## `_get_processed_data` (src lines 825-850): the record normaliser -/

/-- The fixed API-internal attribute keys excluded from `cols`. -/
def droppedAttributeKeys : List String :=
  ["id", "displayProperties", "highlightedContent", "fileFormats"]

/-- `' '.join(v)` for a list value. -/
def spaceJoin (l : List String) : String := String.intercalate " " l

/-- `' '.join(v) if type(v) == list else v`. -/
def flattenValue : Value → Value
  | .vlist l => .vstr (spaceJoin l)
  | v => v

/-- Python dict assignment `out[id_col] = item['id']` on an association-list
dict: update in place when the key exists, append otherwise. -/
def dictInsert (k : String) (v : Value) (d : Row) : Row :=
  if d.any (fun p => decide (p.1 = k)) then
    d.map (fun p => if p.1 = k then (k, v) else p)
  else d ++ [(k, v)]

/-- `_get_processed_data`: `cols` is the first item's attribute keys minus
the dropped keys; each item is restricted to `cols`, list values are
space-joined, and the item's id is added under `id_col`.  Python raises an
IndexError on `data[0]` for an empty batch; both call sites guarantee a
non-empty batch, and the embedding returns `[]` there. -/
def getProcessedData (data : List Item) (idCol : String) : List Row :=
  match data with
  | [] => []
  | d0 :: _ =>
    let cols := (d0.attributes.map Prod.fst).filter
      (fun k => decide (k ∉ droppedAttributeKeys))
    data.map (fun item =>
      dictInsert idCol (.vstr item.id)
        ((item.attributes.filter (fun p => decide (p.1 ∈ cols))).map
          (fun p => (p.1, flattenValue p.2))))

/-! ## `get_request_json` (src lines 67-149): transport + rate-limit governor -/

/-- `WAIT_MINUTES = 20`: cool-down between rate-limited attempts. -/
def waitMinutes : Nat := 20

/-- `POLL_SECONDS = 10`: length of one blocking sleep increment. -/
def pollSeconds : Nat := 10

/-- `STATUS_CODE_OVER_RATE_LIMIT = 429`. -/
def statusOverRateLimit : Nat := 429

/-- The attempt loop `for _ in range(1, int(60 / WAIT_MINUTES) + 3)` runs
`int(60 / WAIT_MINUTES) + 2` times. -/
def rateLimitAttempts : Nat := 60 / waitMinutes + 2

/-- An HTTP response: status code plus parsed JSON body. -/
structure HttpResponse where
  status : Nat
  body : ResponseJson
  deriving DecidableEq, Repr

/-- `poll_for_response` (src lines 102-133), for one incoming response.
Status 200 returns `(True, json)`.  Status 429 with `wait_for_rate_limits`
sleeps for the cool-down window and returns `(False, json)`.  Otherwise the
duplicate detector is consulted (it may itself raise); a skippable duplicate
returns `(False, json)`, and any other case calls `raise_for_status()`,
which raises exactly when the status is a 4xx/5xx error. -/
def pollForResponse (wait skip : Bool) (resp : HttpResponse) :
    Except PyErr (Bool × ResponseJson) :=
  if resp.status = 200 then .ok (true, resp.body)
  else if resp.status = statusOverRateLimit ∧ wait = true then .ok (false, resp.body)
  else
    match isDuplicatedOnServer resp.body with
    | .error e => .error e
    | .ok dup =>
      if (dup && skip) = true then .ok (false, resp.body)
      else if 400 ≤ resp.status then .error (.httpError resp.status resp.body)
      else .ok (false, resp.body)

/-- The attempt loop of `get_request_json` (src lines 142-149).
`responses i` is the response the server produces for the `i`-th attempt
(0-based).  After the final attempt the Python code falls out of the loop
and raises `RuntimeError(f"Unrecoverable error; ...")` carrying the last
response body (`last`); the loop body always runs at least once, so the
`none` fallback is unreachable from `getRequestJson`. -/
def getRequestJsonLoop (responses : Nat → HttpResponse) (wait skip : Bool) :
    Nat → Nat → Option ResponseJson → Except PyErr ResponseJson
  | 0, _, last =>
    match last with
    | some rj => .error (.unrecoverableError rj)
    | none => .error .keyError
  | k + 1, i, _ =>
    match pollForResponse wait skip (responses i) with
    | .error e => .error e
    | .ok (success, rj) =>
      if success = true then .ok rj
      else
        match isDuplicatedOnServer rj with
        | .error e => .error e
        | .ok dup =>
          if (dup && skip) = true then .ok rj
          else getRequestJsonLoop responses wait skip k (i + 1) (some rj)

/-- `get_request_json`: runs the bounded attempt loop. -/
def getRequestJson (responses : Nat → HttpResponse) (wait skip : Bool) :
    Except PyErr ResponseJson :=
  getRequestJsonLoop responses wait skip rateLimitAttempts 0 none

/-! ## `_write_to_csv` (src lines 880-906): the flat-file sink -/

/-- `df.replace(r"\n", " ", regex=True)` on one string cell: every newline
character becomes one space. -/
def cleanNewlines (s : String) : String :=
  ⟨s.data.map (fun c => if c = '\n' then ' ' else c)⟩

/-- The newline normalisation acts on string cells; other cell types are
left unchanged by `DataFrame.replace`. -/
def cleanValue : Value → Value
  | .vstr s => .vstr (cleanNewlines s)
  | v => v

/-- Whether a cell value is list-valued.  The sink never receives list
cells: the normaliser has flattened them before `_output_data` runs. -/
def isListValue : Value → Bool
  | .vlist _ => true
  | _ => false

/-- `d`-th decimal digit as a character. -/
def digitChar (d : Nat) : Char :=
  if d = 0 then '0' else if d = 1 then '1' else if d = 2 then '2'
  else if d = 3 then '3' else if d = 4 then '4' else if d = 5 then '5'
  else if d = 6 then '6' else if d = 7 then '7' else if d = 8 then '8'
  else '9'

/-- Decimal digits of a natural number, most significant first. -/
def natDigits (n : Nat) : List Char :=
  if _h : n < 10 then [digitChar n]
  else natDigits (n / 10) ++ [digitChar (n % 10)]
decreasing_by
  exact Nat.div_lt_self (by omega) (by omega)

/-- Decimal rendering of an integer cell, as `to_csv` prints it. -/
def intChars (n : Int) : List Char :=
  if n < 0 then '-' :: natDigits n.natAbs else natDigits n.toNat

/-- The text `to_csv` renders for one cell value (`NaN`/missing renders as
the empty string).  List cells never reach the sink — the normaliser has
flattened them — and are rendered by their joined text. -/
def valueText : Value → String
  | .vstr s => s
  | .vint n => ⟨intChars n⟩
  | .vnull => ""
  | .vlist l => spaceJoin l

/-- Doubling of embedded quote characters inside a quoted CSV field. -/
def escapeQuotes (s : String) : String :=
  ⟨s.data.foldr (fun c acc => if c = '"' then '"' :: '"' :: acc else c :: acc) []⟩

/-- One field under `quoting=csv.QUOTE_ALL`: always wrapped in quotes. -/
def quoteField (s : String) : String := "\"" ++ escapeQuotes s ++ "\""

/-- Comma-separated join of already-rendered fields. -/
def commaJoin : List String → String
  | [] => ""
  | [s] => s
  | s :: rest => s ++ "," ++ commaJoin rest

/-- One physical CSV record: quoted fields joined by commas, plus the line
terminator. -/
def renderRecord (fields : List String) : String :=
  commaJoin (fields.map quoteField) ++ "\n"

/-- Concatenation of rendered records, in order. -/
def linesConcat : List String → String
  | [] => ""
  | s :: rest => s ++ linesConcat rest

/-- `pd.DataFrame(data)` column order: first appearance across the rows. -/
def columnsOf (rows : List Row) : List String :=
  rows.foldl (fun acc r => acc ++ ((r.map Prod.fst).filter (fun k => decide (k ∉ acc)))) []

/-- The text of one cell of the DataFrame, after newline normalisation. -/
def cellText (r : Row) (c : String) : String :=
  match (r.find? (fun p => decide (p.1 = c))).map Prod.snd with
  | none => ""
  | some v => valueText (cleanValue v)

/-- The header record `to_csv` writes on first creation. -/
def headerLineOf (rows : List Row) : String := renderRecord (columnsOf rows)

/-- The data records `to_csv` appends for the batch. -/
def csvBody (rows : List Row) : String :=
  linesConcat (rows.map (fun r => renderRecord ((columnsOf rows).map (cellText r))))

/-- `_write_to_csv`: the text appended to `csv_filename`; the header record
is included exactly when `os.path.isfile(csv_filename)` is false at write
time (`header=(not os.path.isfile(csv_filename))`, with `mode='a'`). -/
def writeToCsvText (rows : List Row) (fileExists : Bool) : String :=
  (if fileExists then "" else headerLineOf rows) ++ csvBody rows

/-- Number of physical line breaks in a string. -/
def countNewlines (s : String) : Nat := s.data.count '\n'

/-! ## Pluralisation and identifier columns -/

/-- `data_type if data_type[-1:] == "s" else data_type + "s"`
(src lines 164, 209, 315). -/
def pluralize (dataType : String) : String :=
  if dataType.data.getLast? = some 's' then dataType else dataType ++ "s"

/-- `s[:len(s)-1]`: Python string slice removing the last character. -/
def stringDropLast (s : String) : String := ⟨s.data.dropLast⟩

/-- `id_col = data_type[:len(data_type)-1] + "Id"` (src lines 216, 321),
applied to the already-pluralised `data_type`. -/
def headerIdCol (pluralDataType : String) : String :=
  stringDropLast pluralDataType ++ "Id"

/-- `id_column = (data_type[:-1] if data_type[-1:] == "s" else data_type) + "Id"`
(src line 518). -/
def csvIdColumn (dataType : String) : String :=
  (if dataType.data.getLast? = some 's' then stringDropLast dataType else dataType) ++ "Id"

def apiBaseUrl : String := "https://api.regulations.gov/v4/"

/-! ## The listing-endpoint abstraction and `get_items_count` (src 152-168) -/

/-- The Regulations.gov search endpoint for one fixed query `params`:
`count` is the `meta.totalElements` of the count probe, and `page cursor p`
is the body answering the page-`p` request with the additional
`filter[lastModifiedDate][ge] = cursor` filter and ascending
`sort=lastModifiedDate`. -/
structure ListingApi where
  count : Nat
  page : Nat → Nat → ResponseJson

/-- `get_items_count`: the URL requested and the `totalElements` returned. -/
def getItemsCount (api : ListingApi) (dataType : String) : String × Nat :=
  (apiBaseUrl ++ pluralize dataType, api.count)

/-! ## `gather_headers` (src lines 171-287): the header pagination engine

The engine is modelled on the success path of the transport (the retry
wrapper around each page request is `pageFetchWithRetries` above).  Besides
its final state it records every page request issued (with the running
count at issue time) and every successive cursor value, which is what the
claims about it quantify over. -/

/-- One page request of the pagination engine, with the cursor and page
number sent and the value of `n_retrieved` at the moment of the request. -/
structure PageRequest where
  cursor : Nat
  page : Nat
  retrievedAtIssue : Nat
  deriving DecidableEq, Repr

/-- `r_items['meta']['lastPage']` of the previous response; at `page == 1`
the disjunct is short-circuited away, so the default is immaterial. -/
def lastPageOf : Option ResponseJson → Bool
  | none => true
  | some r => r.metaLastPage

/-- The inner `while` loop of `gather_headers` (src lines 238-266): the
cursor is fixed for the whole window.  Arguments after the fuel: the running
count `n`, the page number, the accumulated window data, and the previous
response `r_items`.  Returns the new count, the accumulated data, the final
`r_items` and the page requests issued.  `none` models fuel exhaustion (the
Python loop need not terminate against an adversarial server). -/
def headersInnerLoop (api : ListingApi) (total cursor : Nat) :
    Nat → Nat → Nat → List Item → Option ResponseJson →
    Option (Nat × List Item × ResponseJson × List PageRequest)
  | 0, _, _, _, _ => none
  | fuel + 1, n, page, acc, rPrev =>
    if n < total ∧ (page = 1 ∨ lastPageOf rPrev = false) then
      match headersInnerLoop api total cursor fuel
          (n + (api.page cursor page).dataList.length) (page + 1)
          (acc ++ (api.page cursor page).dataList) (some (api.page cursor page)) with
      | none => none
      | some (n2, acc2, rLast, reqs) =>
          some (n2, acc2, rLast, ⟨cursor, page, n⟩ :: reqs)
    else
      match rPrev with
      | none => none
      | some r => some (n, acc, r, [])

/-- The outer `while n_retrieved < totalElements` loop of `gather_headers`
(src lines 232-277).  After each window the cursor becomes the
`lastModifiedDate` of the final item of the last response
(`r_items['data'][-1]`, an IndexError when that page is empty), and the
accumulated window data is normalised and flushed as one batch.  Returns
the final count, the page requests issued, the successive cursor values,
and the flushed batches. -/
def headersOuterLoop (api : ListingApi) (idCol : String) (total : Nat) :
    Nat → Nat → Nat →
    Except PyErr (Nat × List PageRequest × List Nat × List (List Row))
  | 0, n, _ => if n < total then .error .outOfFuel else .ok (n, [], [], [])
  | fuel + 1, n, cursor =>
    if n < total then
      match headersInnerLoop api total cursor (fuel + 1) n 1 [] none with
      | none => .error .outOfFuel
      | some (n2, acc, rLast, reqs) =>
        match rLast.dataList.getLast? with
        | none => .error .indexError
        | some lastItem =>
          match headersOuterLoop api idCol total fuel n2
              lastItem.lastModifiedDate with
          | .error e => .error e
          | .ok (nF, reqs2, cursors, batches) =>
              .ok (nF, reqs ++ reqs2, lastItem.lastModifiedDate :: cursors,
                   getProcessedData acc idCol :: batches)
    else .ok (n, [], [], [])

/-- The observable outcome of one `gather_headers` run. -/
structure GatherHeadersOut where
  endpoint : String
  tableName : String
  idCol : String
  target : Nat
  nRetrieved : Nat
  requests : List PageRequest
  cursors : List Nat
  batches : List (List Row)
  deriving DecidableEq, Repr

/-- The placeholder cursor `'1900-01-01 00:00:00'`, minimal among all
normalised timestamps. -/
def initialCursorDate : Nat := 0

/-- `gather_headers`: sink check first (`ValueError` before any network
activity), then pluralisation, identifier column, count probe, clamping of
`totalElements` to `max_items`, and the paged retrieval. -/
def gatherHeaders (api : ListingApi) (dataType : String)
    (dbFilename csvFilename : Option String) (maxItems : Option Nat)
    (fuel : Nat) : Except PyErr GatherHeadersOut :=
  if dbFilename = none ∧ csvFilename = none then
    .error (.valueError "Must specify either a database file name or CSV filename")
  else
    let dt := pluralize dataType
    let idCol := headerIdCol dt
    let totalElements := (getItemsCount api dt).2
    let total := match maxItems with
      | some m => if m < totalElements then m else totalElements
      | none => totalElements
    match headersOuterLoop api idCol total fuel 0 initialCursorDate with
    | .error e => .error e
    | .ok (nF, reqs, cursors, batches) =>
        .ok { endpoint := apiBaseUrl ++ dt, tableName := dt ++ "_header",
              idCol := idCol, target := total, nRetrieved := nF,
              requests := reqs, cursors := cursors, batches := batches }

/-! ## `gather_details` (src lines 290-363): the detail fetch loop -/

/-- The observable outcome of one `gather_details` run. -/
structure GatherDetailsOut where
  tableName : String
  idCol : String
  nRetrieved : Nat
  batches : List (List Row)
  deriving DecidableEq, Repr

/-- The `for item_id in ids` loop of `gather_details` (src lines 332-359),
including the trailing flush of the final partial batch.  `fetch url` is
the outcome of `get_request_json(url, wait_for_rate_limits=True,
skip_duplicates=skip_duplicates)`.  The `skip_duplicates and
_is_duplicated_on_server(r_item)` test short-circuits, so the detector only
runs (and can only raise) when skipping is enabled. -/
def detailsLoop (fetch : String → Except PyErr ResponseJson) (dt idCol : String)
    (skipDup : Bool) (insertEvery : Nat) :
    List String → Nat → List Item → Except PyErr (Nat × List (List Row))
  | [], n, data =>
      .ok (n, if 0 < data.length then [getProcessedData data idCol] else [])
  | itemId :: rest, n, data =>
    match fetch (apiBaseUrl ++ dt ++ "/" ++ itemId) with
    | .error e => .error e
    | .ok r =>
      match (if skipDup then isDuplicatedOnServer r else .ok false) with
      | .error e => .error e
      | .ok true => detailsLoop fetch dt idCol skipDup insertEvery rest n data
      | .ok false =>
        match r.dataItem with
        | none => .error .keyError
        | some item =>
          if 0 < n + 1 ∧ (n + 1) % insertEvery = 0 then
            match detailsLoop fetch dt idCol skipDup insertEvery rest (n + 1) [] with
            | .error e => .error e
            | .ok (nF, batches) =>
                .ok (nF, getProcessedData (data ++ [item]) idCol :: batches)
          else detailsLoop fetch dt idCol skipDup insertEvery rest (n + 1) (data ++ [item])

/-- `gather_details`: sink check first (`ValueError` before any network
activity), then pluralisation, identifier column and the per-identifier loop. -/
def gatherDetails (fetch : String → Except PyErr ResponseJson) (dataType : String)
    (ids : List String) (dbFilename csvFilename : Option String)
    (insertEvery : Nat) (skipDup : Bool) : Except PyErr GatherDetailsOut :=
  if dbFilename = none ∧ csvFilename = none then
    .error (.valueError "Must specify either a database file name or CSV filename")
  else
    let dt := pluralize dataType
    let idCol := headerIdCol dt
    match detailsLoop fetch dt idCol skipDup insertEvery ids 0 [] with
    | .error e => .error e
    | .ok (nF, batches) =>
        .ok { tableName := dt ++ "_detail", idCol := idCol,
              nRetrieved := nF, batches := batches }

/-! ## `get_ids_from_csv` (src lines 500-536) -/

/-- Python's `row.index(id_column)` on the header row: index of the first
occurrence, `none` when the column is absent (where Python raises the
ValueError caught at src line 528). -/
def listIndex (idColumn : String) : List String → Option Nat
  | [] => none
  | c :: rest =>
    if c = idColumn then some 0
    else (listIndex idColumn rest).map (· + 1)

/-- The body of the reader loop: `ids.append(row[id_column_index])`, an
IndexError when a row is shorter than the header promised. -/
def collectIds (idx : Nat) : List (List String) → Except PyErr (List String)
  | [] => .ok []
  | row :: rest =>
    match row.get? idx with
    | none => .error .indexError
    | some v => (collectIds idx rest).map (fun ids => v :: ids)

/-- `get_ids_from_csv`: `rows` are the parsed CSV records, the first being
the header row.  A missing identifier column raises
`ValueError(f"Missing id column ... in ...")`.  `list(set(ids))` (whose
order Python leaves unspecified) is determinised as `List.eraseDups`. -/
def getIdsFromCsv (rows : List (List String)) (csvFilename dataType : String)
    (unique : Bool) : Except PyErr (List String) :=
  let idColumn := csvIdColumn dataType
  match rows with
  | [] => .ok []
  | header :: rest =>
    match listIndex idColumn header with
    | none => .error (.valueError ("Missing id column " ++ idColumn ++ " in " ++ csvFilename))
    | some idx =>
      match collectIds idx rest with
      | .error e => .error e
      | .ok ids => .ok (if unique then ids.eraseDups else ids)

/-! ## Concrete servers used by witnesses -/

/-- A trivial listing server: zero matching items. -/
def trivialListingApi : ListingApi :=
  { count := 0, page := fun _ _ => ⟨none, [], none, true⟩ }

/-- A small concrete listing server: every window answers with a single
last page holding one item whose normalised timestamp is one past the
cursor filter, so the server honours the `lastModifiedDate >= cursor`
filter. -/
def echoListingApi : ListingApi :=
  { count := 3, page := fun c _ => ⟨none, [⟨"W", [], c + 1⟩], none, true⟩ }

/-- The outcome of `gatherHeaders echoListingApi "comments" (some "db.sqlite")
none (some 2) 5`, used as the concrete run in witnesses. -/
def echoRunOut : GatherHeadersOut :=
  { endpoint := "https://api.regulations.gov/v4/comments",
    tableName := "comments_header",
    idCol := "commentId",
    target := 2,
    nRetrieved := 2,
    requests := [⟨0, 1, 0⟩, ⟨1, 1, 1⟩],
    cursors := [1, 2],
    batches := [[[("commentId", Value.vstr "W")]], [[("commentId", Value.vstr "W")]]] }

/-! # Theorems -/

/-! ## Helper lemmas for the relational sink (claim C3) -/

theorem insertData_cons (u : String) (t : List Row) (r : Row) (rest : List Row) :
    insertData u t (r :: rest) = insertData u (insertOrIgnoreRow u t r) rest := rfl

theorem tableKeys_append (u : String) (t : List Row) (r : Row) :
    tableKeys u (t ++ [r]) = tableKeys u t ++ tableKeys u [r] := by
  simp [tableKeys, List.filterMap_append]

theorem tableKeys_insertOrIgnoreRow_sub (u : String) (t : List Row) (r : Row) :
    ∀ k ∈ tableKeys u t, k ∈ tableKeys u (insertOrIgnoreRow u t r) := by
  intro k hk
  unfold insertOrIgnoreRow
  split
  · exact hk
  · split
    · exact hk
    · rw [tableKeys_append]; exact List.mem_append_left _ hk

theorem insertOrIgnoreRow_eq_ite (u : String) (t : List Row) (r : Row) (k : Value)
    (hrk : rowKey u r = some k) :
    insertOrIgnoreRow u t r = if k ∈ tableKeys u t then t else t ++ [r] := by
  unfold insertOrIgnoreRow
  rw [hrk]

theorem rowKey_mem_insertOrIgnoreRow (u : String) (t : List Row) (r : Row) (k : Value)
    (hrk : rowKey u r = some k) : k ∈ tableKeys u (insertOrIgnoreRow u t r) := by
  rw [insertOrIgnoreRow_eq_ite u t r k hrk]
  split
  · next hmem => exact hmem
  · rw [tableKeys_append]
    apply List.mem_append_right
    simp [tableKeys, List.filterMap_cons, hrk]

theorem tableKeys_insertData_sub (u : String) (batch : List Row) :
    ∀ t, ∀ k ∈ tableKeys u t, k ∈ tableKeys u (insertData u t batch) := by
  induction batch with
  | nil => intro t k hk; exact hk
  | cons r rest ih =>
    intro t k hk
    rw [insertData_cons]
    exact ih _ _ (tableKeys_insertOrIgnoreRow_sub u t r k hk)

theorem batch_keys_mem_insertData (u : String) (batch : List Row) :
    ∀ t r, r ∈ batch → ∀ k, rowKey u r = some k →
      k ∈ tableKeys u (insertData u t batch) := by
  induction batch with
  | nil => intro t r hr; cases hr
  | cons b rest ih =>
    intro t r hr k hk
    rw [insertData_cons]
    rcases List.mem_cons.mp hr with rfl | hr
    · exact tableKeys_insertData_sub u rest _ k
        (rowKey_mem_insertOrIgnoreRow u t r k hk)
    · exact ih _ r hr k hk

theorem insertData_no_new (u : String) (batch : List Row) :
    ∀ t, (∀ r ∈ batch, ∀ k, rowKey u r = some k → k ∈ tableKeys u t) →
    insertData u t batch = t := by
  induction batch with
  | nil => intro t _; rfl
  | cons b rest ih =>
    intro t h
    rw [insertData_cons]
    have hb : insertOrIgnoreRow u t b = t := by
      cases hrk : rowKey u b with
      | none => unfold insertOrIgnoreRow; rw [hrk]
      | some k =>
        rw [insertOrIgnoreRow_eq_ite u t b k hrk,
          if_pos (h b (List.mem_cons_self b rest) k hrk)]
    rw [hb]
    exact ih t (fun r hr => h r (List.mem_cons_of_mem b hr))

/-- Claim C3: the relational sink write is idempotent.  Inserting the same
batch a second time with insert-or-ignore semantics keyed on the table's
unique identifier column leaves the permanent table unchanged, and in
particular leaves the same row count as writing the batch once. -/
theorem insertData_idempotent (uniqueCol : String) (t batch : List Row) :
    insertData uniqueCol (insertData uniqueCol t batch) batch =
      insertData uniqueCol t batch ∧
    (insertData uniqueCol (insertData uniqueCol t batch) batch).length =
      (insertData uniqueCol t batch).length := by
  have h := insertData_no_new uniqueCol batch (insertData uniqueCol t batch)
    (fun r hr k hk => batch_keys_mem_insertData uniqueCol batch t r hr k hk)
  exact ⟨h, by rw [h]⟩

/-- Claim C2 (code bug): the page-fetch retry loop of `gather_headers`
attempts the request up to five times, but after the fifth failed attempt
the exception is swallowed, not propagated: the loop ends with no response
(`none`, after which the engine reads the stale or unbound `r_items`),
whereas a fetch that fails four times and succeeds on the fifth attempt
yields that success. -/
theorem pageRetry_swallows_final_exception :
    pageFetchWithRetries (fun _ => .error .indexError) = none ∧
    pageFetchWithRetries
      (fun n => if n < 4 then .error .indexError
                else .ok (⟨none, [], none, true⟩ : ResponseJson)) =
      some (⟨none, [], none, true⟩ : ResponseJson) := by
  exact ⟨rfl, rfl⟩

/-! ## Claim C4: the duplicate-anomaly detector -/

theorem take_eq_iff_append {α : Type} (l tgt : List α) (n : Nat)
    (h : tgt.length = n) : l.take n = tgt ↔ ∃ t, l = tgt ++ t := by
  constructor
  · intro ht
    refine ⟨l.drop n, ?_⟩
    rw [← ht, List.take_append_drop]
  · rintro ⟨t, rfl⟩
    rw [← h, List.take_left]

/-- Claim C4: `_is_duplicated_on_server` returns true exactly when the body
has an `errors` list whose first entry has status `"500"` and whose detail
text begins with `"Incorrect result size"`; a body without the `errors` key,
or whose first error has a different status or different leading detail
text, is classified as not a duplicate. -/
theorem isDuplicatedOnServer_spec (r : ResponseJson) :
    (isDuplicatedOnServer r = .ok true ↔
      ∃ e rest, r.errors = some (e :: rest) ∧ e.status = "500" ∧
        ∃ t, e.detail.data = ("Incorrect result size").data ++ t) ∧
    (r.errors = none → isDuplicatedOnServer r = .ok false) ∧
    (∀ e rest, r.errors = some (e :: rest) → e.status ≠ "500" →
      isDuplicatedOnServer r = .ok false) ∧
    (∀ e rest, r.errors = some (e :: rest) →
      (¬ ∃ t, e.detail.data = ("Incorrect result size").data ++ t) →
      isDuplicatedOnServer r = .ok false) := by
  have hlen : ("Incorrect result size").data.length = 21 := by decide
  refine ⟨?_, ?_, ?_, ?_⟩
  · cases herr : r.errors with
    | none => simp [isDuplicatedOnServer, herr]
    | some l =>
      cases l with
      | nil => simp [isDuplicatedOnServer, herr]
      | cons e es =>
        simp only [isDuplicatedOnServer, herr, Except.ok.injEq, Bool.and_eq_true,
          decide_eq_true_eq, Option.some.injEq]
        rw [take_eq_iff_append e.detail.data ("Incorrect result size").data 21 hlen]
        constructor
        · rintro ⟨hs, t, ht⟩
          exact ⟨e, es, rfl, hs, t, ht⟩
        · rintro ⟨e', rest', heq, hs, t, ht⟩
          cases (List.cons.injEq .. ▸ heq : e = e' ∧ es = rest').1
          exact ⟨hs, t, ht⟩
  · intro herr
    simp [isDuplicatedOnServer, herr]
  · intro e rest herr hs
    simp [isDuplicatedOnServer, herr, hs]
  · intro e rest herr hd
    rw [← take_eq_iff_append e.detail.data ("Incorrect result size").data 21 hlen] at hd
    simp [isDuplicatedOnServer, herr, hd]

/-- Witness for claim C4: the body
`{"errors":[{"status":"500","detail":"Incorrect result size: expected 1, actual 2"}]}`
is classified as a duplicate. -/
theorem isDuplicatedOnServer_spec_witness :
    isDuplicatedOnServer
      (⟨some [⟨"500", "Incorrect result size: expected 1, actual 2"⟩], [], none, true⟩ :
        ResponseJson) = .ok true :=
  (isDuplicatedOnServer_spec _).1.mpr
    ⟨⟨"500", "Incorrect result size: expected 1, actual 2"⟩, [], rfl, rfl,
      (": expected 1, actual 2").data, by decide⟩

/-! ## Claim C8: the record normaliser -/

theorem filter_cols_eq (d0attrs attrs : List (String × Value))
    (hk : attrs.map Prod.fst = d0attrs.map Prod.fst) :
    attrs.filter (fun p => decide (p.1 ∈ (d0attrs.map Prod.fst).filter
      (fun k => decide (k ∉ droppedAttributeKeys)))) =
    attrs.filter (fun p => decide (p.1 ∉ droppedAttributeKeys)) := by
  apply List.filter_congr
  intro p hp
  have hmem : p.1 ∈ d0attrs.map Prod.fst := hk ▸ List.mem_map_of_mem Prod.fst hp
  simp [List.mem_filter, hmem]

theorem find?_map_update (k : String) (v : Value) :
    ∀ d : Row, d.any (fun p => decide (p.1 = k)) = true →
    (d.map (fun p => if p.1 = k then (k, v) else p)).find?
      (fun p => decide (p.1 = k)) = some (k, v) := by
  intro d
  induction d with
  | nil => intro h; simp at h
  | cons p ps ih =>
    intro h
    by_cases hp : p.1 = k
    · simp [hp, List.find?_cons]
    · have hps : ps.any (fun p => decide (p.1 = k)) = true := by
        simpa [List.any_cons, hp] using h
      simp [hp, List.find?_cons, ih hps]

theorem find?_append_key (k : String) (v : Value) :
    ∀ d : Row, d.any (fun p => decide (p.1 = k)) = false →
    (d ++ [(k, v)]).find? (fun p => decide (p.1 = k)) = some (k, v) := by
  intro d
  induction d with
  | nil => simp [List.find?_cons]
  | cons p ps ih =>
    intro h
    have hp : ¬ p.1 = k := by
      intro hpk
      simp [List.any_cons, hpk] at h
    have hps : ps.any (fun p => decide (p.1 = k)) = false := by
      simpa [List.any_cons, hp] using h
    simp [List.cons_append, List.find?_cons, hp, ih hps]

/-- Looking up the identifier column in a row produced by
`out[id_col] = item['id']` always yields the inserted identifier. -/
theorem rowKey_dictInsert (k : String) (v : Value) (d : Row) :
    rowKey k (dictInsert k v d) = some v := by
  unfold dictInsert rowKey
  split
  · next hany => rw [find?_map_update k v d hany]; rfl
  · next hany =>
    rw [find?_append_key k v d
      (by simp only [Bool.not_eq_true] at hany; exact hany)]
    rfl

/-- Claim C8 counterexample: in the heterogeneous batch
`[{'id':'A','attributes':{'a':'x'}}, {'id':'B','attributes':{'a':'x','b':'y'}}]`
the attribute `b` of the second item is not one of the dropped API-internal
keys, yet it does not pass through to the second output row, because the
column set is derived from the first item's attribute keys only. -/
theorem getProcessedData_drops_unlisted_key :
    getProcessedData
      [⟨"A", [("a", .vstr "x")], 0⟩, ⟨"B", [("a", .vstr "x"), ("b", .vstr "y")], 0⟩]
      "commentId" =
      [[("a", .vstr "x"), ("commentId", .vstr "A")],
       [("a", .vstr "x"), ("commentId", .vstr "B")]] ∧
    "b" ∉ droppedAttributeKeys ∧
    ("b", Value.vstr "y") ∉
      [("a", Value.vstr "x"), ("commentId", Value.vstr "B")] :=
  ⟨by decide, by decide, by decide⟩

/-- Claim C8 (amended): on a non-empty batch whose items all carry the same
attribute keys as the first item (the documented homogeneity precondition;
for heterogeneous batches, keys outside the first item's set are dropped
too), the normaliser drops exactly the fixed API-internal keys, joins list
values with single spaces, passes every other value through unchanged, and
adds the item's identifier under the identifier column; looking up the
identifier column in any produced row yields the item's identifier. -/
theorem getProcessedData_spec (d0 : Item) (rest : List Item) (idCol : String)
    (hkeys : ∀ it ∈ d0 :: rest,
      it.attributes.map Prod.fst = d0.attributes.map Prod.fst) :
    getProcessedData (d0 :: rest) idCol =
      (d0 :: rest).map (fun it =>
        dictInsert idCol (.vstr it.id)
          ((it.attributes.filter (fun p => decide (p.1 ∉ droppedAttributeKeys))).map
            (fun p => (p.1, flattenValue p.2)))) ∧
    (∀ l, flattenValue (.vlist l) = .vstr (String.intercalate " " l)) ∧
    (∀ s, flattenValue (.vstr s) = .vstr s) ∧
    (∀ n, flattenValue (.vint n) = .vint n) ∧
    flattenValue .vnull = .vnull ∧
    (∀ it : Item, ∀ d : Row,
      rowKey idCol (dictInsert idCol (.vstr it.id) d) = some (.vstr it.id)) := by
  refine ⟨?_, fun l => rfl, fun s => rfl, fun n => rfl, rfl,
    fun it d => rowKey_dictInsert idCol (.vstr it.id) d⟩
  have hunfold : getProcessedData (d0 :: rest) idCol =
      (d0 :: rest).map (fun item =>
        dictInsert idCol (.vstr item.id)
          ((item.attributes.filter (fun p => decide (p.1 ∈
              (d0.attributes.map Prod.fst).filter
                (fun k => decide (k ∉ droppedAttributeKeys))))).map
            (fun p => (p.1, flattenValue p.2)))) := rfl
  rw [hunfold]
  apply List.map_congr_left
  intro it hit
  rw [filter_cols_eq d0.attributes it.attributes (hkeys it hit)]

/-- Witness for claim C8 (amended), on a homogeneous one-item batch with a
dropped key, a plain value and a list value. -/
theorem getProcessedData_spec_witness :
    getProcessedData
      [⟨"A", [("id", .vstr "ignore"), ("title", .vstr "t"), ("tags", .vlist ["x", "y"])], 0⟩]
      "commentId" =
      [[("title", .vstr "t"), ("tags", .vstr "x y"), ("commentId", .vstr "A")]] :=
  ((getProcessedData_spec
      ⟨"A", [("id", .vstr "ignore"), ("title", .vstr "t"), ("tags", .vlist ["x", "y"])], 0⟩
      [] "commentId"
      (by intro it hit; rw [List.mem_singleton] at hit; rw [hit])).1).trans (by decide)

/-! ## Claim C7: the flat-file writer -/

theorem string_data_append (a b : String) : (a ++ b).data = a.data ++ b.data := rfl

theorem countNewlines_append (a b : String) :
    countNewlines (a ++ b) = countNewlines a + countNewlines b := by
  simp [countNewlines, string_data_append, List.count_append]

theorem digitChar_ne_newline (d : Nat) : digitChar d ≠ '\n' := by
  unfold digitChar
  repeat' split
  all_goals decide

theorem natDigits_ne_newline (n : Nat) : ∀ c ∈ natDigits n, c ≠ '\n' := by
  induction n using Nat.strong_induction_on with
  | _ n ih =>
    intro c hc
    rw [natDigits] at hc
    split at hc
    · rw [List.mem_singleton] at hc
      exact hc ▸ digitChar_ne_newline n
    · next hge =>
      rcases List.mem_append.mp hc with h | h
      · exact ih (n / 10) (Nat.div_lt_self (by omega) (by omega)) c h
      · rw [List.mem_singleton] at h
        exact h ▸ digitChar_ne_newline _

theorem intChars_ne_newline (n : Int) : ∀ c ∈ intChars n, c ≠ '\n' := by
  unfold intChars
  split
  · intro c hc
    rcases List.mem_cons.mp hc with rfl | h
    · decide
    · exact natDigits_ne_newline _ c h
  · exact natDigits_ne_newline _

theorem cleanNewlines_ne_newline (s : String) :
    ∀ c ∈ (cleanNewlines s).data, c ≠ '\n' := by
  intro c hc
  simp only [cleanNewlines] at hc
  rcases List.mem_map.mp hc with ⟨a, _, rfl⟩
  by_cases ha : a = '\n'
  · rw [if_pos ha]; decide
  · rw [if_neg ha]; exact ha

theorem cleanNewlines_length (s : String) :
    (cleanNewlines s).data.length = s.data.length := by
  simp [cleanNewlines]

theorem escape_fold_ne_newline :
    ∀ l : List Char, (∀ c ∈ l, c ≠ '\n') →
    ∀ c ∈ l.foldr (fun c acc => if c = '"' then '"' :: '"' :: acc else c :: acc) [],
      c ≠ '\n'
  | [] => by intro _ c hc; cases hc
  | a :: as => by
    intro h c hc
    have has : ∀ c ∈ as, c ≠ '\n' := fun c hcc => h c (List.mem_cons_of_mem a hcc)
    simp only [List.foldr_cons] at hc
    by_cases haq : a = '"'
    · rw [if_pos haq] at hc
      rcases List.mem_cons.mp hc with rfl | hc
      · decide
      · rcases List.mem_cons.mp hc with rfl | hc
        · decide
        · exact escape_fold_ne_newline as has c hc
    · rw [if_neg haq] at hc
      rcases List.mem_cons.mp hc with rfl | hc
      · exact h _ (List.mem_cons_self _ _)
      · exact escape_fold_ne_newline as has c hc

theorem escapeQuotes_ne_newline (s : String) (h : ∀ c ∈ s.data, c ≠ '\n') :
    ∀ c ∈ (escapeQuotes s).data, c ≠ '\n' :=
  escape_fold_ne_newline s.data h

theorem quoteField_data (s : String) :
    (quoteField s).data = '"' :: ((escapeQuotes s).data ++ ['"']) := by
  show (("\"" ++ escapeQuotes s) ++ "\"").data = _
  rw [string_data_append, string_data_append]
  rfl

theorem quoteField_ne_newline (s : String) (h : ∀ c ∈ s.data, c ≠ '\n') :
    ∀ c ∈ (quoteField s).data, c ≠ '\n' := by
  intro c hc
  rw [quoteField_data] at hc
  rcases List.mem_cons.mp hc with rfl | hc
  · decide
  · rcases List.mem_append.mp hc with hc | hc
    · exact escapeQuotes_ne_newline s h c hc
    · rw [List.mem_singleton] at hc; subst hc; decide

theorem quoteField_quotes (s : String) :
    (quoteField s).data.head? = some '"' ∧
    (quoteField s).data.getLast? = some '"' := by
  rw [quoteField_data]
  refine ⟨rfl, ?_⟩
  rw [show ('"' :: ((escapeQuotes s).data ++ ['"'])) =
      ('"' :: (escapeQuotes s).data) ++ ['"'] from rfl]
  exact List.getLast?_concat _

theorem commaJoin_ne_newline :
    ∀ l : List String, (∀ s ∈ l, ∀ c ∈ s.data, c ≠ '\n') →
    ∀ c ∈ (commaJoin l).data, c ≠ '\n'
  | [] => by intro _ c hc; cases hc
  | [s] => by
    intro h c hc
    exact h s (List.mem_singleton_self s) c hc
  | s :: t :: ts => by
    intro h c hc
    have hrest : ∀ u ∈ t :: ts, ∀ c ∈ u.data, c ≠ '\n' :=
      fun u hu => h u (List.mem_cons_of_mem s hu)
    rw [show commaJoin (s :: t :: ts) = s ++ "," ++ commaJoin (t :: ts) from rfl,
      string_data_append, string_data_append] at hc
    rcases List.mem_append.mp hc with hc | hc
    · rcases List.mem_append.mp hc with hc | hc
      · exact h s (List.mem_cons_self s (t :: ts)) c hc
      · rw [show ("," : String).data = [','] from rfl, List.mem_singleton] at hc
        subst hc; decide
    · exact commaJoin_ne_newline (t :: ts) hrest c hc

theorem count_newline_eq_zero (s : String) (h : ∀ c ∈ s.data, c ≠ '\n') :
    countNewlines s = 0 :=
  List.count_eq_zero.mpr (fun hc => h '\n' hc rfl)

theorem countNewlines_renderRecord (fields : List String)
    (h : ∀ s ∈ fields, ∀ c ∈ s.data, c ≠ '\n') :
    countNewlines (renderRecord fields) = 1 := by
  unfold renderRecord
  rw [countNewlines_append]
  rw [count_newline_eq_zero _ (commaJoin_ne_newline _ (by
    intro q hq c hc
    rcases List.mem_map.mp hq with ⟨s, hs, rfl⟩
    exact quoteField_ne_newline s (h s hs) c hc))]
  rfl

theorem cellText_ne_newline (r : Row) (c : String)
    (hr : ∀ p ∈ r, isListValue p.2 = false) :
    ∀ ch ∈ (cellText r c).data, ch ≠ '\n' := by
  unfold cellText
  cases hf : (r.find? (fun p => decide (p.1 = c))).map Prod.snd with
  | none => intro ch hc; cases hc
  | some v =>
    rcases Option.map_eq_some'.mp hf with ⟨p, hp, hpv⟩
    have hpr : p ∈ r := List.mem_of_find?_eq_some hp
    have hnl : isListValue v = false := hpv ▸ hr p hpr
    cases v with
    | vstr s => exact fun ch hc => cleanNewlines_ne_newline s ch hc
    | vlist l => simp [isListValue] at hnl
    | vint n => exact fun ch hc => intChars_ne_newline n ch hc
    | vnull => intro ch hc; cases hc

theorem countNewlines_csvBody_aux (cols : List String) :
    ∀ rows : List Row, (∀ r ∈ rows, ∀ p ∈ r, isListValue p.2 = false) →
    countNewlines (linesConcat (rows.map
      (fun r => renderRecord (cols.map (cellText r))))) = rows.length := by
  intro rows
  induction rows with
  | nil => intro _; rfl
  | cons r rest ih =>
    intro h
    rw [List.map_cons,
      show linesConcat (renderRecord (cols.map (cellText r)) ::
        rest.map (fun r => renderRecord (cols.map (cellText r)))) =
        renderRecord (cols.map (cellText r)) ++
        linesConcat (rest.map (fun r => renderRecord (cols.map (cellText r))))
        from rfl,
      countNewlines_append,
      countNewlines_renderRecord _ (by
        intro s hs ch hc
        rcases List.mem_map.mp hs with ⟨col, _, rfl⟩
        exact cellText_ne_newline r col (h r (List.mem_cons_self r rest)) ch hc),
      ih (fun q hq => h q (List.mem_cons_of_mem r hq))]
    rw [List.length_cons, Nat.add_comm]

/-- Claim C7: the flat-file writer appends the batch as delimited records
with every field quoted; the header record is included exactly when the
target file does not yet exist at write time (so the existing-file output is
the new-file output minus its leading header); newline characters inside
string field values are each normalised to a single space (no newline
survives, lengths are preserved); and, for batches whose cells are scalars
(as produced by the normaliser), the appended body has exactly one physical
line per output row. -/
theorem writeToCsv_spec (rows : List Row)
    (hnl : ∀ r ∈ rows, ∀ p ∈ r, isListValue p.2 = false) :
    writeToCsvText rows false = headerLineOf rows ++ writeToCsvText rows true ∧
    countNewlines (csvBody rows) = rows.length ∧
    (∀ s, ∀ c ∈ (cleanNewlines s).data, c ≠ '\n') ∧
    (∀ s, (cleanNewlines s).data.length = s.data.length) ∧
    (∀ s, (quoteField s).data.head? = some '"' ∧
      (quoteField s).data.getLast? = some '"') := by
  refine ⟨?_, ?_, cleanNewlines_ne_newline, cleanNewlines_length, quoteField_quotes⟩
  · show headerLineOf rows ++ csvBody rows = headerLineOf rows ++ ("" ++ csvBody rows)
    rfl
  · exact countNewlines_csvBody_aux (columnsOf rows) rows hnl

/-- Witness for claim C7: one row with an embedded newline in its title
produces exactly one appended physical line, and the new-file output is the
header line plus the existing-file output. -/
theorem writeToCsv_spec_witness :
    writeToCsvText [[("commentId", Value.vstr "A"), ("title", Value.vstr "x\ny")]] false =
      headerLineOf [[("commentId", Value.vstr "A"), ("title", Value.vstr "x\ny")]] ++
      writeToCsvText [[("commentId", Value.vstr "A"), ("title", Value.vstr "x\ny")]] true ∧
    countNewlines (csvBody [[("commentId", Value.vstr "A"), ("title", Value.vstr "x\ny")]]) =
      [[("commentId", Value.vstr "A"), ("title", Value.vstr "x\ny")]].length :=
  ⟨(writeToCsv_spec [[("commentId", Value.vstr "A"), ("title", Value.vstr "x\ny")]]
      (by decide)).1,
   (writeToCsv_spec [[("commentId", Value.vstr "A"), ("title", Value.vstr "x\ny")]]
      (by decide)).2.1⟩

/-! ## Claim C6: the rate-limit governor -/

theorem getRequestJsonLoop_exhaust (responses : Nat → HttpResponse) (skip : Bool) :
    ∀ k i last, 0 < k →
    (∀ j, i ≤ j → j < i + k →
      (responses j).status = statusOverRateLimit ∧
      isDuplicatedOnServer (responses j).body = .ok false) →
    getRequestJsonLoop responses true skip k i last =
      .error (.unrecoverableError (responses (i + k - 1)).body) := by
  intro k
  induction k with
  | zero => intro i last h0; exact absurd h0 (Nat.lt_irrefl 0)
  | succ k ih =>
    intro i last _ h
    have hi := h i (Nat.le_refl i) (by omega)
    have hpoll : pollForResponse true skip (responses i) =
        .ok (false, (responses i).body) := by
      unfold pollForResponse
      rw [hi.1]
      simp [statusOverRateLimit]
    rw [show getRequestJsonLoop responses true skip (k + 1) i last =
        match pollForResponse true skip (responses i) with
        | .error e => .error e
        | .ok (success, rj) =>
          if success = true then .ok rj
          else
            match isDuplicatedOnServer rj with
            | .error e => .error e
            | .ok dup =>
              if (dup && skip) = true then .ok rj
              else getRequestJsonLoop responses true skip k (i + 1) (some rj)
        from rfl,
      hpoll]
    dsimp only
    rw [if_neg Bool.false_ne_true, hi.2]
    dsimp only
    rw [Bool.false_and, if_neg Bool.false_ne_true]
    cases k with
    | zero =>
      show Except.error (PyErr.unrecoverableError (responses i).body) = _
      have : i + 1 - 1 = i := by omega
      rw [this]
    | succ k2 =>
      rw [ih (i + 1) (some (responses i).body) (by omega)
        (fun j hj1 hj2 => h j (by omega) (by omega))]
      have : i + 1 + (k2 + 1) - 1 = i + (k2 + 1 + 1) - 1 := by omega
      rw [this]

/-- Claim C6: with `wait_for_rate_limits` enabled the governor makes a
bounded number of attempts — `int(60 / WAIT_MINUTES) + 2 = 5` of them, whose
cool-down windows cover at least one hour — and when every attempt is
answered with a 429 rate-limit response (no success and no skippable
duplicate), it raises the terminal unrecoverable error carrying the last
response body. -/
theorem getRequestJson_bounded_exhaustion (responses : Nat → HttpResponse)
    (skip : Bool)
    (h : ∀ i < rateLimitAttempts,
      (responses i).status = statusOverRateLimit ∧
      isDuplicatedOnServer (responses i).body = .ok false) :
    rateLimitAttempts = 5 ∧
    60 ≤ rateLimitAttempts * waitMinutes ∧
    getRequestJson responses true skip =
      .error (.unrecoverableError (responses (rateLimitAttempts - 1)).body) := by
  refine ⟨rfl, by decide, ?_⟩
  unfold getRequestJson
  rw [getRequestJsonLoop_exhaust responses skip rateLimitAttempts 0 none
    (by decide) (fun j _ hj2 => h j (by omega))]
  rw [Nat.zero_add]

/-- Witness for claim C6: five straight 429 responses exhaust the governor
and surface the final body inside the unrecoverable error. -/
theorem getRequestJson_bounded_exhaustion_witness :
    rateLimitAttempts = 5 ∧
    60 ≤ rateLimitAttempts * waitMinutes ∧
    getRequestJson (fun _ => ⟨429, ⟨none, [], none, true⟩⟩) true false =
      .error (.unrecoverableError (⟨none, [], none, true⟩ : ResponseJson)) :=
  getRequestJson_bounded_exhaustion (fun _ => ⟨429, ⟨none, [], none, true⟩⟩) false
    (fun _ _ => ⟨rfl, rfl⟩)

/-! ## Claims C1 and C5: the header pagination engine -/

theorem headersInnerLoop_succ (api : ListingApi) (total cursor fuel n page : Nat)
    (acc : List Item) (rPrev : Option ResponseJson) :
    headersInnerLoop api total cursor (fuel + 1) n page acc rPrev =
      if n < total ∧ (page = 1 ∨ lastPageOf rPrev = false) then
        match headersInnerLoop api total cursor fuel
            (n + (api.page cursor page).dataList.length) (page + 1)
            (acc ++ (api.page cursor page).dataList) (some (api.page cursor page)) with
        | none => none
        | some (n2, acc2, rLast, reqs) =>
            some (n2, acc2, rLast, ⟨cursor, page, n⟩ :: reqs)
      else
        match rPrev with
        | none => none
        | some r => some (n, acc, r, []) := rfl

theorem headersInnerLoop_rLast (api : ListingApi) (total cursor : Nat)
    (hhon : ∀ c p, ∀ it ∈ (api.page c p).dataList, c ≤ it.lastModifiedDate) :
    ∀ fuel n page acc rPrev n2 acc2 rLast reqs,
      headersInnerLoop api total cursor fuel n page acc rPrev =
        some (n2, acc2, rLast, reqs) →
      (∀ it ∈ rLast.dataList, cursor ≤ it.lastModifiedDate) ∨ rPrev = some rLast := by
  intro fuel
  induction fuel with
  | zero =>
    intro n page acc rPrev n2 acc2 rLast reqs h
    simp [headersInnerLoop] at h
  | succ fuel ih =>
    intro n page acc rPrev n2 acc2 rLast reqs h
    rw [headersInnerLoop_succ] at h
    split at h
    · split at h
      · exact absurd h (by simp)
      · next n3 acc3 rLast3 reqs3 heq =>
        have hcomp : n3 = n2 ∧ acc3 = acc2 ∧ rLast3 = rLast ∧
            PageRequest.mk cursor page n :: reqs3 = reqs := by
          simpa using h
        rcases ih _ _ _ _ _ _ _ _ heq with hb | hpr
        · left
          rw [← hcomp.2.2.1]
          exact hb
        · left
          intro it hit
          rw [← hcomp.2.2.1] at hit
          have hr3 : rLast3 = api.page cursor page := by
            injection hpr with hh
            exact hh.symm
          rw [hr3] at hit
          exact hhon cursor page it hit
    · split at h
      · exact absurd h (by simp)
      · rename_i r hneg
        clear hneg
        have hcomp : n = n2 ∧ acc = acc2 ∧ r = rLast ∧ [] = reqs := by
          simpa using h
        right
        rw [hcomp.2.2.1]

theorem headersInnerLoop_requests (api : ListingApi) (total cursor : Nat) :
    ∀ fuel n page acc rPrev n2 acc2 rLast reqs,
      headersInnerLoop api total cursor fuel n page acc rPrev =
        some (n2, acc2, rLast, reqs) →
      ∀ q ∈ reqs, q.retrievedAtIssue < total := by
  intro fuel
  induction fuel with
  | zero =>
    intro n page acc rPrev n2 acc2 rLast reqs h
    simp [headersInnerLoop] at h
  | succ fuel ih =>
    intro n page acc rPrev n2 acc2 rLast reqs h
    rw [headersInnerLoop_succ] at h
    split at h
    · next hguard =>
      split at h
      · exact absurd h (by simp)
      · next n3 acc3 rLast3 reqs3 heq =>
        obtain ⟨rfl, rfl, rfl, rfl⟩ : n3 = n2 ∧ acc3 = acc2 ∧ rLast3 = rLast ∧
            PageRequest.mk cursor page n :: reqs3 = reqs := by
          simpa using h
        intro q hq
        rcases List.mem_cons.mp hq with rfl | hq
        · exact hguard.1
        · exact ih _ _ _ _ _ _ _ _ heq q hq
    · split at h
      · exact absurd h (by simp)
      · next r heq =>
        obtain ⟨rfl, rfl, rfl, rfl⟩ : n = n2 ∧ acc = acc2 ∧ r = rLast ∧ [] = reqs := by
          simpa using h
        intro q hq
        cases hq

theorem headersOuterLoop_chain (api : ListingApi) (idCol : String) (total : Nat)
    (hhon : ∀ c p, ∀ it ∈ (api.page c p).dataList, c ≤ it.lastModifiedDate) :
    ∀ fuel n cursor nF reqs cursors batches,
      headersOuterLoop api idCol total fuel n cursor =
        .ok (nF, reqs, cursors, batches) →
      List.Chain' (· ≤ ·) (cursor :: cursors) := by
  intro fuel
  induction fuel with
  | zero =>
    intro n cursor nF reqs cursors batches h
    rw [headersOuterLoop] at h
    split at h
    · exact absurd h (by simp)
    · obtain ⟨rfl, rfl, rfl, rfl⟩ : n = nF ∧ [] = reqs ∧ ([] : List Nat) = cursors ∧
          ([] : List (List Row)) = batches := by
        simpa using h
      exact List.chain'_singleton cursor
  | succ fuel ih =>
    intro n cursor nF reqs cursors batches h
    rw [headersOuterLoop] at h
    split at h
    · split at h
      · exact absurd h (by simp)
      · next n2 acc rLast reqs1 hin =>
        split at h
        · exact absurd h (by simp)
        · next lastItem hlast =>
          split at h
          · exact absurd h (by simp)
          · next nF2 reqs2 cursors2 batches2 hrec =>
            obtain ⟨rfl, rfl, rfl, rfl⟩ : nF2 = nF ∧ reqs1 ++ reqs2 = reqs ∧
                lastItem.lastModifiedDate :: cursors2 = cursors ∧
                getProcessedData acc idCol :: batches2 = batches := by
              simpa using h
            have hchain := ih _ _ _ _ _ _ hrec
            have hle : cursor ≤ lastItem.lastModifiedDate := by
              rcases headersInnerLoop_rLast api total cursor hhon _ _ _ _ _ _ _ _ _ hin
                with hb | habs
              · refine hb lastItem ?_
                rcases List.mem_getLast?_eq_getLast
                    (show lastItem ∈ rLast.dataList.getLast? from hlast) with ⟨hne, heq2⟩
                exact heq2 ▸ List.getLast_mem hne
              · cases habs
            exact List.chain'_cons.mpr ⟨hle, hchain⟩
    · obtain ⟨rfl, rfl, rfl, rfl⟩ : n = nF ∧ [] = reqs ∧ ([] : List Nat) = cursors ∧
          ([] : List (List Row)) = batches := by
        simpa using h
      exact List.chain'_singleton cursor

theorem headersOuterLoop_requests (api : ListingApi) (idCol : String) (total : Nat) :
    ∀ fuel n cursor nF reqs cursors batches,
      headersOuterLoop api idCol total fuel n cursor =
        .ok (nF, reqs, cursors, batches) →
      ∀ q ∈ reqs, q.retrievedAtIssue < total := by
  intro fuel
  induction fuel with
  | zero =>
    intro n cursor nF reqs cursors batches h
    rw [headersOuterLoop] at h
    split at h
    · exact absurd h (by simp)
    · obtain ⟨rfl, rfl, rfl, rfl⟩ : n = nF ∧ [] = reqs ∧ ([] : List Nat) = cursors ∧
          ([] : List (List Row)) = batches := by
        simpa using h
      intro q hq
      cases hq
  | succ fuel ih =>
    intro n cursor nF reqs cursors batches h
    rw [headersOuterLoop] at h
    split at h
    · split at h
      · exact absurd h (by simp)
      · next n2 acc rLast reqs1 hin =>
        split at h
        · exact absurd h (by simp)
        · next lastItem hlast =>
          split at h
          · exact absurd h (by simp)
          · next nF2 reqs2 cursors2 batches2 hrec =>
            obtain ⟨rfl, rfl, rfl, rfl⟩ : nF2 = nF ∧ reqs1 ++ reqs2 = reqs ∧
                lastItem.lastModifiedDate :: cursors2 = cursors ∧
                getProcessedData acc idCol :: batches2 = batches := by
              simpa using h
            intro q hq
            rcases List.mem_append.mp hq with hq | hq
            · exact headersInnerLoop_requests api total cursor _ _ _ _ _ _ _ _ _ hin q hq
            · exact ih _ _ _ _ _ _ hrec q hq
    · obtain ⟨rfl, rfl, rfl, rfl⟩ : n = nF ∧ [] = reqs ∧ ([] : List Nat) = cursors ∧
          ([] : List (List Row)) = batches := by
        simpa using h
      intro q hq
      cases hq

/-- `echoListingApi` honours the `lastModifiedDate >= cursor` filter. -/
theorem echoListingApi_honest :
    ∀ c p, ∀ it ∈ (echoListingApi.page c p).dataList, c ≤ it.lastModifiedDate := by
  intro c p it hit
  rw [show (echoListingApi.page c p).dataList = [⟨"W", [], c + 1⟩] from rfl,
    List.mem_singleton] at hit
  rw [hit]
  exact Nat.le_succ c

/-- Claim C1: during a `gather_headers` run against a server that honours
the `lastModifiedDate >= cursor` filter, the query cursor — starting at the
`'1900-01-01 00:00:00'` placeholder and advanced after each window to the
normalised `lastModifiedDate` of the final accumulated item — is
monotonically non-decreasing across successive outer-loop iterations. -/
theorem gatherHeaders_cursor_monotone (api : ListingApi) (dataType : String)
    (db csv : Option String) (maxItems : Option Nat) (fuel : Nat)
    (out : GatherHeadersOut)
    (hhon : ∀ c p, ∀ it ∈ (api.page c p).dataList, c ≤ it.lastModifiedDate)
    (hrun : gatherHeaders api dataType db csv maxItems fuel = .ok out) :
    List.Chain' (· ≤ ·) (initialCursorDate :: out.cursors) := by
  unfold gatherHeaders at hrun
  split at hrun
  · cases hrun
  · dsimp only at hrun
    split at hrun
    · cases hrun
    · next nF reqs cursors batches houter =>
      have hcur : out.cursors = cursors := by
        cases hrun
        rfl
      rw [hcur]
      exact headersOuterLoop_chain api _ _ hhon _ _ _ _ _ _ _ houter

/-- Witness for claim C1: a concrete two-window run; the successive cursor
values 1 and 2 are non-decreasing from the placeholder onward. -/
theorem gatherHeaders_cursor_monotone_witness :
    List.Chain' (· ≤ ·) (initialCursorDate :: echoRunOut.cursors) :=
  gatherHeaders_cursor_monotone echoListingApi "comments" (some "db.sqlite") none
    (some 2) 5 echoRunOut echoListingApi_honest rfl

/-- Claim C5: when `max_items` is supplied and smaller than `totalElements`,
the target is clamped to `max_items`, and every page request of the run is
issued while the retrieved count is still below that clamped target: no
request is issued whose start would exceed the target. -/
theorem gatherHeaders_max_items (api : ListingApi) (dataType : String)
    (db csv : Option String) (m fuel : Nat) (out : GatherHeadersOut)
    (hm : m < api.count)
    (hrun : gatherHeaders api dataType db csv (some m) fuel = .ok out) :
    out.target = m ∧ ∀ q ∈ out.requests, q.retrievedAtIssue < m := by
  unfold gatherHeaders at hrun
  split at hrun
  · cases hrun
  · dsimp only [getItemsCount] at hrun
    rw [if_pos hm] at hrun
    split at hrun
    · cases hrun
    · next nF reqs cursors batches houter =>
      have hreq : out.requests = reqs ∧ out.target = m := by
        cases hrun
        exact ⟨rfl, rfl⟩
      refine ⟨hreq.2, ?_⟩
      rw [hreq.1]
      exact headersOuterLoop_requests api _ _ _ _ _ _ _ _ _ houter

/-- Witness for claim C5: in the concrete run capped at 2 of 3 items, the
target is 2 and the second page request was issued with only 1 item
retrieved. -/
theorem gatherHeaders_max_items_witness :
    2 < echoListingApi.count ∧
    echoRunOut.target = 2 ∧
    (⟨1, 1, 1⟩ : PageRequest).retrievedAtIssue < 2 :=
  have h := gatherHeaders_max_items echoListingApi "comments" (some "db.sqlite")
    none 2 5 echoRunOut (by decide) rfl
  ⟨by decide, h.1, h.2 ⟨1, 1, 1⟩ (by decide)⟩

/-! ## Claim C9: fail-fast on caller misuse -/

theorem listIndex_eq_none (idColumn : String) :
    ∀ header : List String, idColumn ∉ header → listIndex idColumn header = none
  | [] => fun _ => rfl
  | c :: rest => by
    intro h
    unfold listIndex
    rw [if_neg (show ¬ c = idColumn from
        fun hh => h (by rw [← hh]; exact List.mem_cons_self c rest)),
      listIndex_eq_none idColumn rest (fun hr => h (List.mem_cons_of_mem c hr))]
    rfl

/-- Claim C9: caller misuse fails fast before any network activity.
`gather_headers` and `gather_details` raise the descriptive `ValueError`
whenever neither a database filename nor a CSV filename is given — for every
possible server behaviour, i.e. without consulting the network — and
`get_ids_from_csv` raises a `ValueError` naming the missing identifier
column whenever that column is absent from the file's header row. -/
theorem failFast_spec :
    (∀ api dataType maxItems fuel,
      gatherHeaders api dataType none none maxItems fuel =
        .error (.valueError "Must specify either a database file name or CSV filename")) ∧
    (∀ fetch dataType ids insertEvery skipDup,
      gatherDetails fetch dataType ids none none insertEvery skipDup =
        .error (.valueError "Must specify either a database file name or CSV filename")) ∧
    (∀ (header : List String) rest csvFilename dataType unique,
      csvIdColumn dataType ∉ header →
      getIdsFromCsv (header :: rest) csvFilename dataType unique =
        .error (.valueError
          ("Missing id column " ++ csvIdColumn dataType ++ " in " ++ csvFilename))) := by
  refine ⟨?_, ?_, ?_⟩
  · intro api dataType maxItems fuel
    unfold gatherHeaders
    rw [if_pos ⟨rfl, rfl⟩]
  · intro fetch dataType ids insertEvery skipDup
    unfold gatherDetails
    rw [if_pos ⟨rfl, rfl⟩]
  · intro header rest csvFilename dataType unique hmem
    rw [show getIdsFromCsv (header :: rest) csvFilename dataType unique =
        (match listIndex (csvIdColumn dataType) header with
        | none => .error (.valueError
            ("Missing id column " ++ csvIdColumn dataType ++ " in " ++ csvFilename))
        | some idx =>
          match collectIds idx rest with
          | .error e => .error e
          | .ok ids => .ok (if unique then ids.eraseDups else ids)) from rfl,
      listIndex_eq_none _ _ hmem]

/-- Witness for claim C9: both sink-less calls fail with the descriptive
error, and a CSV whose header lacks `commentId` fails naming that column. -/
theorem failFast_spec_witness :
    gatherHeaders trivialListingApi "comments" none none none 0 =
      .error (.valueError "Must specify either a database file name or CSV filename") ∧
    gatherDetails (fun _ => .ok ⟨none, [], none, true⟩) "comments" [] none none 500 true =
      .error (.valueError "Must specify either a database file name or CSV filename") ∧
    getIdsFromCsv [["a", "b"]] "f.csv" "comments" false =
      .error (.valueError ("Missing id column " ++ csvIdColumn "comments" ++ " in " ++ "f.csv")) :=
  ⟨failFast_spec.1 trivialListingApi "comments" none 0,
   failFast_spec.2.1 (fun _ => .ok ⟨none, [], none, true⟩) "comments" [] 500 true,
   failFast_spec.2.2 ["a", "b"] [] "f.csv" "comments" false (by decide)⟩

/-! ## Claim C10: invariance under pluralisation -/

theorem append_s_data (dt : String) : (dt ++ "s").data = dt.data ++ ['s'] := rfl

theorem pluralize_of_not_s (dt : String) (h : ¬ dt.data.getLast? = some 's') :
    pluralize dt = dt ++ "s" := by
  unfold pluralize
  rw [if_neg h]

theorem getLast?_append_s (dt : String) : (dt ++ "s").data.getLast? = some 's' := by
  rw [append_s_data]
  exact List.getLast?_concat _

theorem pluralize_append_s (dt : String) : pluralize (dt ++ "s") = dt ++ "s" := by
  unfold pluralize
  rw [if_pos (getLast?_append_s dt)]

theorem pluralize_invariant (dt : String) (h : ¬ dt.data.getLast? = some 's') :
    pluralize (dt ++ "s") = pluralize dt := by
  rw [pluralize_append_s, pluralize_of_not_s dt h]

theorem stringDropLast_append_s (dt : String) : stringDropLast (dt ++ "s") = dt := by
  unfold stringDropLast
  rw [append_s_data, List.dropLast_concat]

/-- Claim C10: every operation taking a resource kind is invariant under
pluralisation of that argument.  For a `data_type` not ending in `"s"`,
`get_items_count`, `gather_headers`, `gather_details` and `get_ids_from_csv`
behave identically on `data_type` and on `data_type ++ "s"`, and the derived
identifier column is always the singular kind followed by `"Id"`. -/
theorem pluralization_invariance (dataType : String)
    (h : ¬ dataType.data.getLast? = some 's') :
    (∀ api, getItemsCount api dataType = getItemsCount api (dataType ++ "s")) ∧
    (∀ api db csv maxItems fuel,
      gatherHeaders api dataType db csv maxItems fuel =
        gatherHeaders api (dataType ++ "s") db csv maxItems fuel) ∧
    (∀ fetch ids db csv insertEvery skipDup,
      gatherDetails fetch dataType ids db csv insertEvery skipDup =
        gatherDetails fetch (dataType ++ "s") ids db csv insertEvery skipDup) ∧
    (∀ rows csvFilename unique,
      getIdsFromCsv rows csvFilename dataType unique =
        getIdsFromCsv rows csvFilename (dataType ++ "s") unique) ∧
    headerIdCol (pluralize dataType) = dataType ++ "Id" ∧
    csvIdColumn dataType = dataType ++ "Id" ∧
    csvIdColumn (dataType ++ "s") = dataType ++ "Id" := by
  have hp := pluralize_invariant dataType h
  have hcsv1 : csvIdColumn dataType = dataType ++ "Id" := by
    unfold csvIdColumn
    rw [if_neg h]
  have hcsv2 : csvIdColumn (dataType ++ "s") = dataType ++ "Id" := by
    unfold csvIdColumn
    rw [if_pos (getLast?_append_s dataType), stringDropLast_append_s]
  refine ⟨?_, ?_, ?_, ?_, ?_, hcsv1, hcsv2⟩
  · intro api
    unfold getItemsCount
    rw [hp]
  · intro api db csv maxItems fuel
    unfold gatherHeaders
    rw [hp]
  · intro fetch ids db csv insertEvery skipDup
    unfold gatherDetails
    rw [hp]
  · intro rows csvFilename unique
    unfold getIdsFromCsv
    rw [hcsv1, hcsv2]
  · rw [pluralize_of_not_s dataType h]
    unfold headerIdCol
    rw [stringDropLast_append_s]

/-- Witness for claim C10 at the kind `"comment"`: the count probe treats
`"comment"` and `"comments"` identically and both derive the identifier
column `"commentId"`. -/
theorem pluralization_invariance_witness :
    getItemsCount trivialListingApi "comment" =
      getItemsCount trivialListingApi ("comment" ++ "s") ∧
    csvIdColumn "comment" = "comment" ++ "Id" ∧
    csvIdColumn ("comment" ++ "s") = "comment" ++ "Id" :=
  have h := pluralization_invariance "comment" (by decide)
  ⟨h.1 trivialListingApi, h.2.2.2.2.2.1, h.2.2.2.2.2.2⟩
